import Mathlib

/-!
Shallow embedding of the coast-schedules court manager
(src/court_manager.py) and proofs about its availability-diff,
interval-consolidation, message-formatting and poll-cycle logic.

Times are modelled as seconds since the Unix epoch (naive local
timestamps as well as UTC instants), using the proleptic Gregorian
calendar.  The US/Pacific zone conversion models the post-2007 DST rule
used by the zone database for the dates this program processes: DST runs
from 10:00 UTC on the second Sunday of March to 09:00 UTC on the first
Sunday of November, offset UTC-7 in DST and UTC-8 otherwise.
-/

/-- Days since 1970-01-01 of a Gregorian date (civil to days). -/
def daysFromCivil (y m d : Nat) : Nat :=
  let y1 := if m ≤ 2 then y - 1 else y
  let era := y1 / 400
  let yoe := y1 % 400
  let mp := if 2 < m then m - 3 else m + 9
  let doy := (153 * mp + 2) / 5 + d - 1
  let doe := yoe * 365 + yoe / 4 - yoe / 100 + doy
  era * 146097 + doe - 719468

/-- Gregorian date (year, month, day) of a day count since 1970-01-01. -/
def civilFromDays (z0 : Nat) : Nat × Nat × Nat :=
  let z := z0 + 719468
  let era := z / 146097
  let doe := z % 146097
  let yoe := (doe - doe / 1460 + doe / 36524 - doe / 146096) / 365
  let y := yoe + era * 400
  let doy := doe - (365 * yoe + yoe / 4 - yoe / 100)
  let mp := (5 * doy + 2) / 153
  let d := doy - (153 * mp + 2) / 5 + 1
  let m := if mp < 10 then mp + 3 else mp - 9
  (if m ≤ 2 then y + 1 else y, m, d)

/-- Epoch seconds of a Gregorian date and time of day. -/
def mkEpoch (y m d h mi s : Nat) : Nat :=
  daysFromCivil y m d * 86400 + h * 3600 + mi * 60 + s

/-- First day on or after day number d that is a Sunday
(day 0 = 1970-01-01 was a Thursday; weekday code 0 = Sunday). -/
def firstSundayOnOrAfter (d : Nat) : Nat :=
  d + (7 - (d + 4) % 7) % 7

/-- Day number of the second Sunday of March of a year. -/
def secondSundayMarch (y : Nat) : Nat :=
  firstSundayOnOrAfter (daysFromCivil y 3 1) + 7

/-- Day number of the first Sunday of November of a year. -/
def firstSundayNov (y : Nat) : Nat :=
  firstSundayOnOrAfter (daysFromCivil y 11 1)

/-- Whether a UTC instant falls in US/Pacific daylight-saving time
(post-2007 rule, as applied by pytz for the dates handled here). -/
def isPacificDst (u : Nat) : Bool :=
  let y := (civilFromDays ((u - 8 * 3600) / 86400)).1
  decide (secondSundayMarch y * 86400 + 10 * 3600 ≤ u) &&
    decide (u < firstSundayNov y * 86400 + 9 * 3600)

/-- Naive US/Pacific local time (epoch seconds) of a UTC instant;
models datetime.astimezone(PACIFIC_TIMEZONE) in parse_availabilities. -/
def pacificOfUtc (u : Nat) : Nat :=
  u - (if isPacificDst u then 7 * 3600 else 8 * 3600)

/-- Decimal digit character. -/
def digitChar (n : Nat) : Char := Char.ofNat (48 + n)

/-- Two-digit zero-padded decimal rendering (strftime %m, %d, %I, %M, %S). -/
def pad2 (n : Nat) : String :=
  String.mk [digitChar (n / 10 % 10), digitChar (n % 10)]

/-- Four-digit zero-padded decimal rendering (strftime %Y). -/
def pad4 (n : Nat) : String :=
  String.mk [digitChar (n / 1000 % 10), digitChar (n / 100 % 10),
    digitChar (n / 10 % 10), digitChar (n % 10)]

/-- Hour on the 12-hour clock (strftime %I before padding). -/
def hour12 (h : Nat) : Nat := (h + 11) % 12 + 1

/-- Morning or afternoon marker (strftime %p). -/
def meridiem (h : Nat) : String := if h < 12 then "AM" else "PM"

/-- strftime with TIMESTAMP_FORMAT = "%Y-%m-%d %I:%M:%S %p"
applied to a naive local timestamp; produces a TimeKey. -/
def strftimeTimestamp (t : Nat) : String :=
  let days := t / 86400
  let ymd := civilFromDays days
  let secs := t % 86400
  let h := secs / 3600
  let mi := secs / 60 % 60
  let s := secs % 60
  pad4 ymd.1 ++ "-" ++ pad2 ymd.2.1 ++ "-" ++ pad2 ymd.2.2 ++ " " ++
    pad2 (hour12 h) ++ ":" ++ pad2 mi ++ ":" ++ pad2 s ++ " " ++ meridiem h

/-- Weekday abbreviation (strftime %a), weekday code 0 = Sunday. -/
def weekdayAbbrev : Nat → String
  | 0 => "Sun"
  | 1 => "Mon"
  | 2 => "Tue"
  | 3 => "Wed"
  | 4 => "Thu"
  | 5 => "Fri"
  | _ => "Sat"

/-- strftime with DATE_FMT = "%a %m/%d": the day label used by notify. -/
def strftimeDate (t : Nat) : String :=
  let days := t / 86400
  let ymd := civilFromDays days
  weekdayAbbrev ((days + 4) % 7) ++ " " ++ pad2 ymd.2.1 ++ "/" ++ pad2 ymd.2.2

/-- Python str.lstrip("0"): drop all leading zero characters. -/
def lstripZeros (s : String) : String :=
  String.mk (s.data.dropWhile (fun c => c == '0'))

/-- strftime with TIME_FMT = "%I:%M %p" on a naive local timestamp. -/
def strftimeTime (t : Nat) : String :=
  let secs := t % 86400
  let h := secs / 3600
  let mi := secs / 60 % 60
  pad2 (hour12 h) ++ ":" ++ pad2 mi ++ " " ++ meridiem h

/-- time_fmt in output_str: 12-hour time with leading zeros stripped. -/
def timeFmt (t : Nat) : String := lstripZeros (strftimeTime t)

/-- Python str.split(sep) for a one-character separator, on char lists. -/
def splitOnSep (sep : Char) : List Char → List (List Char)
  | [] => [[]]
  | c :: rest =>
    let r := splitOnSep sep rest
    if c = sep then [] :: r
    else
      match r with
      | [] => [[c]]
      | g :: gs => (c :: g) :: gs

/-- Value of a nonempty all-digit character run (accumulator form). -/
def digitsValAux : List Char → Nat → Option Nat
  | [], acc => some acc
  | c :: rest, acc =>
    if c.isDigit then digitsValAux rest (acc * 10 + (c.toNat - 48)) else none

/-- Decimal value of a nonempty digit string; none on any other input. -/
def digitsVal (cs : List Char) : Option Nat :=
  if cs.isEmpty then none else digitsValAux cs 0

/-- Python int() on a decimal string with an optional sign. -/
def parseInt : List Char → Option Int
  | '-' :: rest => (digitsVal rest).map (fun n => -(n : Int))
  | '+' :: rest => (digitsVal rest).map (fun n => (n : Int))
  | cs => (digitsVal cs).map (fun n => (n : Int))

/-- Python str.replace("Z", "-00:00") as used on raw start times. -/
def replaceZ : List Char → List Char
  | [] => []
  | c :: rest =>
    if c = 'Z' then '-' :: '0' :: '0' :: ':' :: '0' :: '0' :: replaceZ rest
    else c :: replaceZ rest

/-- Day count of an ISO date "YYYY-MM-DD". -/
def parseDateDays (cs : List Char) : Option Nat :=
  match splitOnSep '-' cs with
  | [ys, ms, ds] =>
    match digitsVal ys, digitsVal ms, digitsVal ds with
    | some y, some m, some d => some (daysFromCivil y m d)
    | _, _, _ => none
  | _ => none

/-- Seconds of day of "HH:MM:SS" or "HH:MM". -/
def parseTimeSecs (cs : List Char) : Option Nat :=
  match splitOnSep ':' cs with
  | [hs, ms, ss] =>
    match digitsVal hs, digitsVal ms, digitsVal ss with
    | some h, some m, some s => some (h * 3600 + m * 60 + s)
    | _, _, _ => none
  | [hs, ms] =>
    match digitsVal hs, digitsVal ms with
    | some h, some m => some (h * 3600 + m * 60)
    | _, _ => none
  | _ => none

/-- Seconds of a UTC offset "HH:MM". -/
def parseOffsetSecs (cs : List Char) : Option Nat :=
  match splitOnSep ':' cs with
  | [hs, ms] =>
    match digitsVal hs, digitsVal ms with
    | some h, some m => some (h * 3600 + m * 60)
    | _, _ => none
  | _ => none

/-- Split the time-of-day part of an ISO timestamp from its signed UTC
offset; the Bool is true when the offset is negative. -/
def splitSignedOffset (cs : List Char) : Option (List Char × Bool × List Char) :=
  match splitOnSep '+' cs with
  | [t, off] => some (t, false, off)
  | [t] =>
    match splitOnSep '-' t with
    | [t2, off] => some (t2, true, off)
    | _ => none
  | _ => none

/-- datetime.fromisoformat on an offset-aware ISO timestamp
"YYYY-MM-DDTHH:MM:SS(+|-)HH:MM", yielding the UTC instant in epoch
seconds (clamped at the epoch). -/
def parseIsoAware (s : String) : Option Nat :=
  match splitOnSep 'T' s.data with
  | [dcs, tcs] =>
    match parseDateDays dcs, splitSignedOffset tcs with
    | some days, some (timeCs, negOff, offCs) =>
      match parseTimeSecs timeCs, parseOffsetSecs offCs with
      | some secs, some off =>
        let localSecs : Int := (days : Int) * 86400 + (secs : Int)
        let utc : Int := if negOff then localSecs + (off : Int) else localSecs - (off : Int)
        some utc.toNat
      | _, _ => none
    | _, _ => none
  | _ => none

/-- TimeKey of a raw start time: replace the Z suffix, parse as an
aware UTC instant, convert to US/Pacific and render with
TIMESTAMP_FORMAT (parse_availabilities, lines 281 to 286). -/
def ptTimeKey (startTime : String) : Option String :=
  match parseIsoAware (String.mk (replaceZ startTime.data)) with
  | none => none
  | some utcSecs => some (strftimeTimestamp (pacificOfUtc utcSecs))

/-- strptime with TIMESTAMP_FORMAT, inverse of the TimeKey rendering;
used on dt[0] at the start of notify. -/
def parseTimestampKey (s : String) : Option Nat :=
  match splitOnSep ' ' s.data with
  | [dcs, tcs, pcs] =>
    match parseDateDays dcs, splitOnSep ':' tcs with
    | some days, [hs, ms, ss] =>
      match digitsVal hs, digitsVal ms, digitsVal ss with
      | some h, some mi, some sec =>
        let ap := String.mk pcs
        if ap = "AM" then some (days * 86400 + h % 12 * 3600 + mi * 60 + sec)
        else if ap = "PM" then some (days * 86400 + (h % 12 + 12) * 3600 + mi * 60 + sec)
        else none
      | _, _, _ => none
    | _, _ => none
  | _ => none

/-- One raw availability record from the API response: a startTime
string and its staffIds tag strings. -/
structure RawSlot where
  startTime : String
  staffIds : List String
deriving DecidableEq

/-- Snapshot: insertion-ordered mapping from TimeKey to the list of
open court numbers, as built by parse_availabilities. -/
abbrev Snapshot := List (String × List Int)

/-- Court index of one staff tag: int(c.split(":")[1]) - 2
(parse_availabilities, line 290). -/
def courtNum (c : String) : Option Int :=
  match (splitOnSep ':' c.data)[1]? with
  | none => none
  | some scs => (parseInt scs).map (fun n => n - 2)

/-- Court indices of all staff tags of one record; none if any tag
fails to parse (the list comprehension raises in that case). -/
def mapCourtNums : List String → Option (List Int)
  | [] => some []
  | c :: rest =>
    match courtNum c, mapCourtNums rest with
    | some n, some ns => some (n :: ns)
    | _, _ => none

/-- Python dict assignment: overwrite the value at a key in place, or
append a new entry at the end. -/
def dictSet (snap : Snapshot) (k : String) (v : List Int) : Snapshot :=
  match snap with
  | [] => [(k, v)]
  | (t, cs) :: rest => if t = k then (t, v) :: rest else (t, cs) :: dictSet rest k v

/-- Loop body of parse_availabilities over the raw records,
accumulating court_data. -/
def parseLoop : List RawSlot → Snapshot → Option Snapshot
  | [], acc => some acc
  | a :: rest, acc =>
    match ptTimeKey a.startTime, mapCourtNums a.staffIds with
    | some key, some courtNums =>
      parseLoop rest (dictSet acc key (courtNums.filter (fun c => decide (c < 8))))
    | _, _ => none

/-- parse_availabilities (lines 269 to 295): normalize the raw records
into a Snapshot, keeping only courts with index below 8. -/
def parseAvailabilities (availabilities : List RawSlot) : Option Snapshot :=
  parseLoop availabilities []

/-- Python dict membership and subscript: value at the first matching
key, none when absent. -/
def lookupKey (k : String) : Snapshot → Option (List Int)
  | [] => none
  | (t, cs) :: rest => if k = t then some cs else lookupKey k rest

/-- Loop of check_for_new_openings over court_data (lines 252 to 267). -/
def diffLoop (oldData : Snapshot) : Snapshot → List (String × List Int)
  | [] => []
  | (courtTime, courts) :: rest =>
    match lookupKey courtTime oldData with
    | none => (courtTime, courts) :: diffLoop oldData rest
    | some oldCourts =>
      let newCourts := courts.filter (fun c => decide (c ∉ oldCourts))
      if newCourts.isEmpty then diffLoop oldData rest
      else (courtTime, newCourts) :: diffLoop oldData rest

/-- check_for_new_openings (lines 238 to 267): diff of the current
snapshot against the previous one; empty when no previous exists. -/
def checkForNewOpenings (oldData : Option Snapshot) (courtData : Snapshot) :
    List (String × List Int) :=
  match oldData with
  | none => []
  | some old => diffLoop old courtData

/-- INTERVAL = timedelta(minutes = INTERVAL_MINS), in seconds. -/
def INTERVAL : Nat := 15 * 60

/-- Insertion step of an ascending sort. -/
def insertSorted (x : Nat) : List Nat → List Nat
  | [] => [x]
  | y :: ys => if x ≤ y then x :: y :: ys else y :: insertSorted x ys

/-- Python sorted() on the parsed timestamps, ascending. -/
def sortNat : List Nat → List Nat
  | [] => []
  | x :: xs => insertSorted x (sortNat xs)

/-- The strptime list comprehension in notify: parse every TimeKey of
the new availabilities; none if any of them fails to parse. -/
def mapTimestamps : List (String × List Int) → Option (List Nat)
  | [] => some []
  | dt :: rest =>
    match parseTimestampKey dt.1, mapTimestamps rest with
    | some t, some ts => some (t :: ts)
    | _, _ => none

/-- defaultdict(list) append: add a range to the list at a day label,
creating the entry at the end when the label is new. -/
def dictAppend (result : List (String × List (Nat × Nat))) (k : String)
    (v : Nat × Nat) : List (String × List (Nat × Nat)) :=
  match result with
  | [] => [(k, [v])]
  | (t, vs) :: rest =>
    if t = k then (t, vs ++ [v]) :: rest else (t, vs) :: dictAppend rest k v

/-- The walk over datetimes[1:] in notify (lines 199 to 205), carrying
(result, date_str, start, end). -/
def consolidateLoop : List Nat → List (String × List (Nat × Nat)) → String →
    Nat → Nat → List (String × List (Nat × Nat)) × String × Nat × Nat
  | [], result, dateStr, start, stop => (result, dateStr, start, stop)
  | current :: rest, result, dateStr, start, stop =>
    if current - stop = INTERVAL then
      consolidateLoop rest result dateStr start current
    else
      let ds := strftimeDate start
      consolidateLoop rest (dictAppend result ds (start, stop + INTERVAL)) ds
        current current

/-- Consolidation step of notify (lines 190 to 208): parse and sort the
new TimeKeys, merge runs exactly one INTERVAL apart into ranges grouped
by day label, and flush the last open window only when more than one
timestamp was present. -/
def consolidate (newAvailabilities : List (String × List Int)) :
    Option (List (String × List (Nat × Nat))) :=
  match mapTimestamps newAvailabilities with
  | none => none
  | some ts =>
    match sortNat ts with
    | [] => some []
    | d0 :: rest =>
      let r := consolidateLoop rest [] (strftimeDate d0) d0 d0
      if (d0 :: rest).length > 1 then
        some (dictAppend r.1 r.2.1 (r.2.2.1, r.2.2.2 + INTERVAL))
      else some r.1

/-- day_fmt inside output_str (lines 168 to 177): collapse a day with
more than two ranges, otherwise enumerate the ranges. -/
def dayFmt (day : String) (periods : List (Nat × Nat)) : String :=
  if periods.length > 2 then day ++ ": Lots of courts open now!"
  else
    let times := String.intercalate ", "
      (periods.map (fun p => timeFmt p.1 ++ " - " ++ timeFmt p.2))
    day ++ ": " ++ times

/-- output_str (lines 163 to 182): one formatted line per day. -/
def outputStr (result : List (String × List (Nat × Nat))) : String :=
  String.intercalate "\n" (result.map (fun p => dayFmt p.1 p.2))

/-- The primary message assembled in notify (lines 212 to 215). -/
def primaryMessage (result : List (String × List (Nat × Nat))) : String :=
  "New availabilities!! Bookings freed up on:\n" ++ outputStr result

/-- Delivery behaviour of notify (lines 189 to 226) as a function of
which sends raise: the list of messages handed to send, paired with
whether an exception escapes notify.  The primary send is wrapped in
try/except; on its failure one fallback send of the constant string
"New availabilities!!" is attempted outside any handler, so its failure
escapes.  A TimeKey that fails to parse raises before any send. -/
def notifyAttempts (newAvailabilities : List (String × List Int))
    (primaryFails fallbackFails : Bool) : List String × Bool :=
  if newAvailabilities.isEmpty then ([], false)
  else
    match consolidate newAvailabilities with
    | none => ([], true)
    | some result =>
      let msg := primaryMessage result
      if primaryFails then ([msg, "New availabilities!!"], fallbackFails)
      else ([msg], false)

/-- Observable side effects of one poll cycle. -/
inductive Effect where
  | refreshToken
  | sendMsg (msg : String)
  | saveSnapshot
deriving DecidableEq

/-- Outcome of the availability request of one cycle. -/
inductive FetchResult where
  | success (raw : List RawSlot)
  | httpError (status : Nat)
  | otherError
deriving DecidableEq

/-- The mutable fields of CourtManager that the poll loop touches. -/
structure ManagerState where
  accessToken : Option String
  courtData : Option Snapshot
  oldData : Option Snapshot
deriving DecidableEq

/-- One iteration of the while loop in run (lines 105 to 140): none
models an uncaught exception that aborts the loop; otherwise the new
state and the side effects of the cycle, in order.  On an HTTPError
with status 400 or 401 the token is refreshed and the cycle is skipped;
on any other request failure the cycle is skipped with no effect; on
success the response is parsed, diffed, notified and saved. -/
def runCycle (st : ManagerState) (fetch : FetchResult) (newToken : String)
    (primaryFails fallbackFails : Bool) : Option (ManagerState × List Effect) :=
  match fetch with
  | FetchResult.httpError status =>
    if status = 400 ∨ status = 401 then
      some ({ st with accessToken := some newToken }, [Effect.refreshToken])
    else some (st, [])
  | FetchResult.otherError => some (st, [])
  | FetchResult.success raw =>
    match parseAvailabilities raw with
    | none => none
    | some snap =>
      let newAv := checkForNewOpenings st.oldData snap
      let sends := notifyAttempts newAv primaryFails fallbackFails
      if sends.2 then none
      else
        some ({ st with courtData := some snap, oldData := some snap },
          sends.1.map Effect.sendMsg ++ [Effect.saveSnapshot])

/-! ## Helper lemmas -/

theorem filter_not_mem_of_subset (cs : List Int) :
    ∀ ds : List Int, (∀ c ∈ ds, c ∈ cs) →
      ds.filter (fun c => decide (c ∉ cs)) = [] := by
  intro ds
  induction ds with
  | nil => intro _; rfl
  | cons c rest ih =>
    intro h
    have hc : c ∈ cs := h c (List.mem_cons_self c rest)
    simp only [List.filter_cons, decide_eq_true_eq]
    rw [if_neg (by simp [hc])]
    exact ih (fun d hd => h d (List.mem_cons_of_mem c hd))

theorem lookupKey_eq_of_nodup {S : Snapshot} (h : (S.map Prod.fst).Nodup)
    {t : String} {cs : List Int} (hm : (t, cs) ∈ S) :
    lookupKey t S = some cs := by
  induction S with
  | nil => cases hm
  | cons p rest ih =>
    obtain ⟨t0, cs0⟩ := p
    simp only [List.map_cons, List.nodup_cons] at h
    rcases List.mem_cons.mp hm with heq | hmem
    · cases heq
      simp [lookupKey]
    · have ht : t ≠ t0 := by
        intro e
        subst e
        exact h.1 (List.mem_map.mpr ⟨(t, cs), hmem, rfl⟩)
      simp only [lookupKey, if_neg ht]
      exact ih h.2 hmem

theorem diffLoop_eq_nil (old : Snapshot) :
    ∀ cur : Snapshot, (∀ t cs, (t, cs) ∈ cur → lookupKey t old = some cs) →
      diffLoop old cur = [] := by
  intro cur
  induction cur with
  | nil => intro _; rfl
  | cons p rest ih =>
    intro h
    obtain ⟨t, cs⟩ := p
    have hl : lookupKey t old = some cs := h t cs (List.mem_cons_self _ _)
    have hf : cs.filter (fun c => decide (c ∉ cs)) = [] :=
      filter_not_mem_of_subset cs cs (fun c hc => hc)
    simp only [diffLoop, hl, hf]
    exact ih (fun t2 cs2 hm => h t2 cs2 (List.mem_cons_of_mem _ hm))

theorem mem_dictSet {q : String × List Int} :
    ∀ {snap : Snapshot} {k : String} {v : List Int},
      q ∈ dictSet snap k v → q ∈ snap ∨ q = (k, v) := by
  intro snap
  induction snap with
  | nil =>
    intro k v hq
    simp only [dictSet, List.mem_singleton] at hq
    exact Or.inr hq
  | cons p rest ih =>
    intro k v hq
    obtain ⟨t, cs⟩ := p
    by_cases ht : t = k
    · subst ht
      simp only [dictSet, if_pos rfl] at hq
      rcases List.mem_cons.mp hq with heq | hmem
      · exact Or.inr heq
      · exact Or.inl (List.mem_cons_of_mem _ hmem)
    · simp only [dictSet, if_neg ht] at hq
      rcases List.mem_cons.mp hq with heq | hmem
      · exact Or.inl (heq ▸ List.mem_cons_self _ _)
      · rcases ih hmem with h | h
        · exact Or.inl (List.mem_cons_of_mem _ h)
        · exact Or.inr h

theorem parseLoop_inScope :
    ∀ (avails : List RawSlot) (acc snap : Snapshot),
      (∀ p ∈ acc, ∀ c ∈ p.2, c < 8) → parseLoop avails acc = some snap →
      ∀ p ∈ snap, ∀ c ∈ p.2, c < 8 := by
  intro avails
  induction avails with
  | nil =>
    intro acc snap hacc hp
    simp only [parseLoop, Option.some.injEq] at hp
    exact hp ▸ hacc
  | cons a rest ih =>
    intro acc snap hacc hp
    simp only [parseLoop] at hp
    cases hkey : ptTimeKey a.startTime with
    | none => rw [hkey] at hp; cases hp
    | some key =>
      cases hns : mapCourtNums a.staffIds with
      | none => rw [hkey, hns] at hp; cases hp
      | some ns =>
        rw [hkey, hns] at hp
        refine ih _ snap ?_ hp
        intro p hpmem c hc
        rcases mem_dictSet hpmem with hold | hnew
        · exact hacc p hold c hc
        · subst hnew
          simp only at hc
          have := List.of_mem_filter hc
          exact of_decide_eq_true this

theorem mapCourtNums_ge :
    ∀ (tags : List String) (ns : List Int), mapCourtNums tags = some ns →
      (∀ c ∈ tags, ∃ n, courtNum c = some n ∧ 8 ≤ n) → ∀ n ∈ ns, 8 ≤ n := by
  intro tags
  induction tags with
  | nil =>
    intro ns hns _
    simp only [mapCourtNums, Option.some.injEq] at hns
    subst hns
    intro n hn
    cases hn
  | cons c rest ih =>
    intro ns hns htags
    simp only [mapCourtNums] at hns
    obtain ⟨m, hm, hge⟩ := htags c (List.mem_cons_self _ _)
    rw [hm] at hns
    cases hrest : mapCourtNums rest with
    | none => rw [hrest] at hns; cases hns
    | some ms =>
      rw [hrest] at hns
      simp only [Option.some.injEq] at hns
      subst hns
      intro n hn
      rcases List.mem_cons.mp hn with heq | hmem
      · exact heq ▸ hge
      · exact ih ms hrest (fun d hd => htags d (List.mem_cons_of_mem _ hd)) n hmem

theorem filter_lt8_eq_nil (ns : List Int) (h : ∀ n ∈ ns, 8 ≤ n) :
    ns.filter (fun c => decide (c < 8)) = [] := by
  induction ns with
  | nil => rfl
  | cons n rest ih =>
    have h8 : ¬ n < 8 := by
      have := h n (List.mem_cons_self _ _)
      omega
    simp only [List.filter_cons, decide_eq_true_eq, if_neg h8]
    exact ih (fun d hd => h d (List.mem_cons_of_mem _ hd))

/-! ## Claim theorems -/

/-- Claim C1: when no previous snapshot exists, check_for_new_openings
returns an empty sequence regardless of the current snapshot. -/
theorem c1_first_cycle_suppression (courtData : Snapshot) :
    checkForNewOpenings none courtData = [] := rfl

/-- Claim C2, evaluated at the failing input: given exactly one new
timestamp (14:00 with a 15-minute interval), consolidation returns an
empty mapping instead of the single range (14:00, 14:15) the spec
requires, because the final-window flush only runs when more than one
timestamp is present. -/
theorem c2_single_opening_dropped :
    consolidate [("2025-05-10 02:00:00 PM", [3])] = some [] := by decide

/-- Claim C3, evaluated at the failing input: with new openings at
Sat 2025-05-10 09:00 and Sun 2025-05-11 10:00, the final window flushed
after the walk (the Sunday range 10:00 to 10:15) is recorded under the
stale day label "Sat 05/10" of the previous window, not under the label
"Sun 05/11" derived from its own start timestamp. -/
theorem c3_final_flush_mislabeled :
    consolidate [("2025-05-10 09:00:00 AM", [1]), ("2025-05-11 10:00:00 AM", [2])] =
      some [("Sat 05/10",
        [(mkEpoch 2025 5 10 9 0 0, mkEpoch 2025 5 10 9 15 0),
         (mkEpoch 2025 5 11 10 0 0, mkEpoch 2025 5 11 10 15 0)])] ∧
    strftimeDate (mkEpoch 2025 5 11 10 0 0) = "Sun 05/11" ∧
    ("Sun 05/11" : String) ≠ "Sat 05/10" := by
  refine ⟨by decide, by decide, by decide⟩

/-- Claim C4, counterexample: when the primary send and the fallback
send both raise, the exception escapes notify (second component true)
and the poll cycle aborts (runCycle returns none), contradicting the
claim that a delivery failure never propagates out of notify and never
aborts the loop. -/
theorem c4_counterexample_fallback_escape :
    (notifyAttempts [("2025-05-10 03:00:00 PM", [1])] true true).2 = true ∧
    runCycle ⟨some "t", none, some []⟩
      (FetchResult.success [⟨"2025-05-10T22:00:00Z", ["255904:3"]⟩])
      "t" true true = none := by
  refine ⟨by decide, by decide⟩

/-- Claim C4 as amended: if the primary send raises, exactly one
fallback send of the fixed minimal message "New availabilities!!" is
attempted and the primary failure itself is caught; the exception
escapes notify exactly when the fallback send also fails. -/
theorem c4_fallback_single_attempt (newAv : List (String × List Int))
    (result : List (String × List (Nat × Nat))) (fallbackFails : Bool)
    (hne : newAv.isEmpty = false) (hc : consolidate newAv = some result) :
    notifyAttempts newAv true fallbackFails =
      ([primaryMessage result, "New availabilities!!"], fallbackFails) := by
  simp [notifyAttempts, hne, hc]

/-- Claim C4 witness: the amended statement applied at a concrete new
opening whose primary send fails and whose fallback send succeeds. -/
theorem c4_fallback_single_attempt_witness :
    notifyAttempts [("2025-05-10 03:00:00 PM", [1])] true false =
      ([primaryMessage [], "New availabilities!!"], false) :=
  c4_fallback_single_attempt [("2025-05-10 03:00:00 PM", [1])] [] false
    (by decide) (by decide)

/-- Claim C5: consolidating the timestamps 09:00, 09:15, 09:30, 10:15
of one day with the 15-minute interval yields exactly the two ranges
(09:00, 09:45) and (10:15, 10:30) under that day. -/
theorem c5_interval_merge :
    consolidate [("2025-05-10 09:00:00 AM", [1]), ("2025-05-10 09:15:00 AM", [2]),
      ("2025-05-10 09:30:00 AM", [1]), ("2025-05-10 10:15:00 AM", [3])] =
      some [("Sat 05/10",
        [(mkEpoch 2025 5 10 9 0 0, mkEpoch 2025 5 10 9 45 0),
         (mkEpoch 2025 5 10 10 15 0, mkEpoch 2025 5 10 10 30 0)])] := by
  decide

/-- Claim C6: diffing any snapshot against itself yields no new
openings (keys of a Python dict are necessarily distinct). -/
theorem c6_diff_idempotent (S : Snapshot) (h : (S.map Prod.fst).Nodup) :
    checkForNewOpenings (some S) S = [] :=
  diffLoop_eq_nil S S (fun _ _ hm => lookupKey_eq_of_nodup h hm)

/-- Claim C6 witness: the idempotence theorem applied to a concrete
two-key snapshot. -/
theorem c6_diff_idempotent_witness :
    checkForNewOpenings
      (some [("2025-05-10 09:00:00 AM", [1, 2]), ("2025-05-10 09:15:00 AM", [3])])
      [("2025-05-10 09:00:00 AM", [1, 2]), ("2025-05-10 09:15:00 AM", [3])] = [] :=
  c6_diff_idempotent
    [("2025-05-10 09:00:00 AM", [1, 2]), ("2025-05-10 09:15:00 AM", [3])]
    (by decide)

/-- Claim C7: every court index in every snapshot built by
parse_availabilities is strictly below 8, and consequently no staff tag
whose numeric suffix is at least 10 (court index suffix minus 2, hence
at least 8) ever contributes its index to a snapshot. -/
theorem c7_resource_filter_invariant (avails : List RawSlot) (snap : Snapshot)
    (h : parseAvailabilities avails = some snap) :
    ∀ p ∈ snap, (∀ c ∈ p.2, c < 8) ∧ ∀ s : Int, 10 ≤ s → s - 2 ∉ p.2 := by
  intro p hp
  have h1 : ∀ c ∈ p.2, c < 8 :=
    parseLoop_inScope avails [] snap (by intro q hq; cases hq) h p hp
  refine ⟨h1, ?_⟩
  intro s hs hmem
  have := h1 _ hmem
  omega

/-- Claim C7 witness: the filtering invariant applied to a concrete raw
response holding one in-scope tag (suffix 3, court 1) and one
out-of-scope tag (suffix 12). -/
theorem c7_resource_filter_invariant_witness :
    parseAvailabilities [⟨"2025-05-10T22:00:00Z", ["255904:3", "255904:12"]⟩] =
      some [("2025-05-10 03:00:00 PM", [1])] ∧
    ∀ p ∈ ([("2025-05-10 03:00:00 PM", [1])] : Snapshot),
      (∀ c ∈ p.2, c < 8) ∧ ∀ s : Int, 10 ≤ s → s - 2 ∉ p.2 :=
  ⟨by decide,
   c7_resource_filter_invariant
     [⟨"2025-05-10T22:00:00Z", ["255904:3", "255904:12"]⟩]
     [("2025-05-10 03:00:00 PM", [1])] (by decide)⟩

/-- Claim C8: on an HTTP 400 or 401 response the cycle refreshes the
token as its only side effect, leaves court_data and old_data
untouched, and the loop continues (no parse, diff, notify or save). -/
theorem c8_auth_failure_cycle (st : ManagerState) (status : Nat) (tok : String)
    (primaryFails fallbackFails : Bool) (h : status = 400 ∨ status = 401) :
    runCycle st (FetchResult.httpError status) tok primaryFails fallbackFails =
      some ({ st with accessToken := some tok }, [Effect.refreshToken]) := by
  rcases h with h | h <;> subst h <;> rfl

/-- Claim C8 witness: the auth-failure theorem applied at a concrete
state and status 401. -/
theorem c8_auth_failure_cycle_witness :
    runCycle ⟨some "t0", some [("k", [1])], some [("k", [1])]⟩
      (FetchResult.httpError 401) "t1" false false =
      some (⟨some "t1", some [("k", [1])], some [("k", [1])]⟩,
        [Effect.refreshToken]) :=
  c8_auth_failure_cycle ⟨some "t0", some [("k", [1])], some [("k", [1])]⟩
    401 "t1" false false (Or.inr rfl)

/-- Claim C9, counterexample: a day with three ranges is rendered as
"Sat 05/10: Lots of courts open now!", not as the line
"Sat 05/10: Lots of openings now!" stated by the claim. -/
theorem c9_counterexample_marker_text :
    outputStr [("Sat 05/10",
      [(mkEpoch 2025 5 10 9 0 0, mkEpoch 2025 5 10 9 15 0),
       (mkEpoch 2025 5 10 10 0 0, mkEpoch 2025 5 10 10 15 0),
       (mkEpoch 2025 5 10 11 0 0, mkEpoch 2025 5 10 11 15 0)])] =
      "Sat 05/10: Lots of courts open now!" ∧
    outputStr [("Sat 05/10",
      [(mkEpoch 2025 5 10 9 0 0, mkEpoch 2025 5 10 9 15 0),
       (mkEpoch 2025 5 10 10 0 0, mkEpoch 2025 5 10 10 15 0),
       (mkEpoch 2025 5 10 11 0 0, mkEpoch 2025 5 10 11 15 0)])] ≠
      "Sat 05/10: Lots of openings now!" := by
  refine ⟨by decide, by decide⟩

/-- Claim C9 as amended: the rendered output is one line per day; a day
with three or more ranges collapses to the marker line
"<day>: Lots of courts open now!", and a day with at most two ranges
enumerates its ranges in 12-hour format with leading zeros stripped. -/
theorem c9_day_cap_rendering (result : List (String × List (Nat × Nat))) :
    outputStr result =
      String.intercalate "\n" (result.map (fun p => dayFmt p.1 p.2)) ∧
    ∀ (day : String) (periods : List (Nat × Nat)),
      (2 < periods.length →
        dayFmt day periods = day ++ ": Lots of courts open now!") ∧
      (periods.length ≤ 2 →
        dayFmt day periods = day ++ ": " ++ String.intercalate ", "
          (periods.map (fun p => timeFmt p.1 ++ " - " ++ timeFmt p.2))) := by
  refine ⟨rfl, fun day periods => ⟨?_, ?_⟩⟩
  · intro h
    simp only [dayFmt, if_pos h]
  · intro h
    have h2 : ¬ periods.length > 2 := by omega
    simp only [dayFmt, if_neg h2]

/-- Claim C9 witness: the amended rendering statement applied to a
concrete three-range day and a concrete one-range day. -/
theorem c9_day_cap_rendering_witness :
    dayFmt "Sat 05/10"
      [(mkEpoch 2025 5 10 9 0 0, mkEpoch 2025 5 10 9 15 0),
       (mkEpoch 2025 5 10 10 0 0, mkEpoch 2025 5 10 10 15 0),
       (mkEpoch 2025 5 10 11 0 0, mkEpoch 2025 5 10 11 15 0)] =
      "Sat 05/10: Lots of courts open now!" ∧
    dayFmt "Sun 05/11" [(mkEpoch 2025 5 11 9 0 0, mkEpoch 2025 5 11 9 15 0)] =
      "Sun 05/11: " ++ String.intercalate ", "
        ([(mkEpoch 2025 5 11 9 0 0, mkEpoch 2025 5 11 9 15 0)].map
          (fun p => timeFmt p.1 ++ " - " ++ timeFmt p.2)) :=
  ⟨((c9_day_cap_rendering []).2 "Sat 05/10"
      [(mkEpoch 2025 5 10 9 0 0, mkEpoch 2025 5 10 9 15 0),
       (mkEpoch 2025 5 10 10 0 0, mkEpoch 2025 5 10 10 15 0),
       (mkEpoch 2025 5 10 11 0 0, mkEpoch 2025 5 10 11 15 0)]).1 (by decide),
   ((c9_day_cap_rendering []).2 "Sun 05/11"
      [(mkEpoch 2025 5 11 9 0 0, mkEpoch 2025 5 11 9 15 0)]).2 (by decide)⟩

/-- Claim C10: a raw record all of whose staff tags map to court
indices of at least 8 (numeric suffix at least 10) still produces a
snapshot entry with an empty court list, and when its TimeKey is absent
from the previous snapshot the diff emits that TimeKey with the empty
list, so a new opening can carry an empty resource set. -/
theorem c10_empty_resource_opening (startTime : String) (tags : List String)
    (snap oldData : Snapshot)
    (hp : parseAvailabilities [⟨startTime, tags⟩] = some snap)
    (ht : ∀ c ∈ tags, ∃ n, courtNum c = some n ∧ 8 ≤ n) :
    ∃ k, snap = [(k, [])] ∧
      (lookupKey k oldData = none →
        checkForNewOpenings (some oldData) snap = [(k, [])]) := by
  cases hkey : ptTimeKey startTime with
  | none => simp [parseAvailabilities, parseLoop, hkey] at hp
  | some k =>
    cases hns : mapCourtNums tags with
    | none => simp [parseAvailabilities, parseLoop, hkey, hns] at hp
    | some ns =>
      have hge : ∀ n ∈ ns, (8 : Int) ≤ n := mapCourtNums_ge tags ns hns ht
      have hfilter : ns.filter (fun c => decide (c < 8)) = [] :=
        filter_lt8_eq_nil ns hge
      have hsnap : snap = [(k, [])] := by
        simp [parseAvailabilities, parseLoop, hkey, hns, hfilter, dictSet] at hp
        exact hp.symm
      refine ⟨k, hsnap, ?_⟩
      intro hlk
      subst hsnap
      simp [checkForNewOpenings, diffLoop, hlk]

/-- Claim C10 witness: the empty-resource-set theorem applied to a
concrete record whose two tags have suffixes 10 and 12, against a
previous snapshot that lacks the resulting TimeKey. -/
theorem c10_empty_resource_opening_witness :
    ∃ k, ([("2025-05-10 03:00:00 PM", [])] : Snapshot) = [(k, [])] ∧
      (lookupKey k [("other", [0])] = none →
        checkForNewOpenings (some [("other", [0])])
          [("2025-05-10 03:00:00 PM", [])] = [(k, [])]) :=
  c10_empty_resource_opening "2025-05-10T22:00:00Z" ["255904:10", "255904:12"]
    [("2025-05-10 03:00:00 PM", [])] [("other", [0])] (by decide)
    (by
      intro c hc
      rcases List.mem_cons.mp hc with h | hc2
      · exact h ▸ ⟨8, by decide, by decide⟩
      · rcases List.mem_cons.mp hc2 with h | hc3
        · exact h ▸ ⟨10, by decide, by decide⟩
        · cases hc3)
